import Mathlib

/-!
Verification development for the ray-tracing engine.

The Rust sources are shallowly embedded over exact rationals: every f32 value
is modelled as a rational number, so all algebraic identities below are exact
(floating-point rounding is outside the model).  The two transcendental f32
primitives the engine uses, sqrt and exp, are passed explicitly as a record of
scalar operations (FloatOps), mirroring the design note of the specification
that external numeric primitives and random sources should be threaded as
parameters.  Shapes and light sources are polymorphic trait objects in the
source; they are embedded as records of their trait methods, so every theorem
quantifies over arbitrary implementations of the SceneObject and LightSource
traits.
-/

set_option maxHeartbeats 1000000

namespace RT

/-- Record of the scalar f32 primitives used by the engine (f32::sqrt and
f32::exp).  Definitions that call these primitives take the record as an
explicit parameter. -/
structure FloatOps where
  sqrt : ℚ → ℚ
  exp : ℚ → ℚ

/-- Computable stand-in for the scalar primitives, used to evaluate the
development on concrete inputs.  Its sqrt is exact on rationals whose
numerator and denominator are perfect squares, which covers every concrete
input used below. -/
def ratOps : FloatOps where
  sqrt := fun q => (Nat.sqrt q.num.toNat : ℚ) / (Nat.sqrt q.den : ℚ)
  exp := fun _ => 1

/-- MatVec, the fixed-arity numeric vector of mod.rs, embedded as a function
from indices to rationals. -/
abbrev MatVec (N : ℕ) : Type := Fin N → ℚ

namespace MatVec

/-- MatVec::dot from mod.rs: sum of componentwise products. -/
def dot {N : ℕ} (a b : MatVec N) : ℚ :=
  ∑ i : Fin N, a i * b i

/-- MatVec::scale from mod.rs: multiplies every component by the scalar.
Both Mul impls of the source (vector times f32 and f32 times vector) reduce
to this function. -/
def scale {N : ℕ} (v : MatVec N) (scalar : ℚ) : MatVec N :=
  fun i => v i * scalar

/-- MatVec::cross restricted to arity 3, the _cross3x3 helper of mod.rs.
For any other arity the source hits a todo panic, which the type of this
embedding rules out. -/
def cross (a b : MatVec 3) : MatVec 3 :=
  ![a 1 * b 2 - a 2 * b 1, a 2 * b 0 - a 0 * b 2, a 0 * b 1 - a 1 * b 0]

/-- MatVec::normalize from mod.rs: divides every component by the magnitude
(the sqrt of the sum of squares).  Division by a zero magnitude yields NaN in
the source; in the rational model it yields 0. -/
def normalize {N : ℕ} (ops : FloatOps) (v : MatVec N) : MatVec N :=
  fun i => v i / ops.sqrt (∑ j : Fin N, v j * v j)

/-- MatVec::magnitude from mod.rs. -/
def magnitude {N : ℕ} (ops : FloatOps) (v : MatVec N) : ℚ :=
  ops.sqrt (∑ j : Fin N, v j * v j)

end MatVec

/-- Ray from ray.rs. -/
structure Ray where
  origin : MatVec 3
  direction : MatVec 3
deriving DecidableEq

/-- Intersection record from mod.rs. -/
structure Intersection where
  shape_id : Option ℕ
  point : MatVec 3
  normal : MatVec 3
  distance : ℚ
  residual : Bool
deriving DecidableEq

/-- LightResidual record from mod.rs. -/
structure LightResidual where
  source_id : Option ℕ
  color : MatVec 3
  intensity : ℚ
  direction : MatVec 3
  normal : MatVec 3
deriving DecidableEq

/-- A SceneObject trait object from scene.rs, embedded as the record of the
trait methods the tracer calls.  The shininess and transparency accessors
return length-3 coefficient vectors when present (the shape constructors in
shapes.rs only ever store length-3 vectors, broadcasting a single
coefficient to all three channels). -/
structure Shape where
  intersect : Ray → Option Intersection
  color_at : MatVec 3 → MatVec 3
  shininess : Option (MatVec 3)
  transparency : Option (MatVec 3)
  ior : ℚ

/-- A LightSource trait object from scene.rs, embedded as the record of the
trait methods the tracer calls. -/
structure LightSource where
  compute_direction : MatVec 3 → MatVec 3
  light_color : MatVec 3
  intensity : Ray → ℚ

/-- Scene from scene.rs. -/
structure Scene where
  shapes : List Shape
  light_sources : List LightSource
  gi_depth : ℕ

/-- Shape used as the default for list indexing.  Rust indexing with
self.shapes[shape_id] panics when out of range; the scan that produces
shape ids only ever stamps in-range indices, so the default is never
reached under the hypotheses of the theorems below. -/
def defaultShape : Shape where
  intersect := fun _ => none
  color_at := fun _ => ![0, 0, 0]
  shininess := none
  transparency := none
  ior := 1458 / 1000

/-- Indexing self.shapes[k]. -/
def shapeAt (s : Scene) (k : ℕ) : Shape :=
  s.shapes.getD k defaultShape

/-- utils::color_to_rgba: appends the alpha channel to a 3-channel color. -/
def color_to_rgba (color : MatVec 3) (alpha : ℚ) : MatVec 4 :=
  ![color 0, color 1, color 2, alpha]

/-- Modelled from the spec: utils::rgba_to_color is called by scene.rs but its
definition is not among the provided sources.  The specification lists a
color-to-RGBA conversion pair among the color utilities; the inverse
direction drops the alpha channel and keeps the three color channels. -/
def rgba_to_color (color : MatVec 4) : MatVec 3 :=
  ![color 0, color 1, color 2]

/-- utils::lambert: folds every light residual into a running 3-channel total
using the Lambertian law, then appends alpha 1. -/
def lambert (base_color : MatVec 3) (ilumination_sources : List LightResidual) : MatVec 4 :=
  let total : MatVec 3 := ilumination_sources.foldl
    (fun total source =>
      total + fun i =>
        source.intensity * max (MatVec.dot source.normal source.direction) 0 * source.color i * base_color i)
    ![0, 0, 0]
  color_to_rgba total 1

/-- utils::appy_exposure: per color channel returns 1 - exp(-channel * exposure)
and passes the alpha channel through. -/
def appy_exposure (ops : FloatOps) (color : MatVec 4) (exposure : ℚ) : MatVec 4 :=
  ![1 - ops.exp (-color 0 * exposure),
    1 - ops.exp (-color 1 * exposure),
    1 - ops.exp (-color 2 * exposure),
    color 3]

/-- f32::clamp. -/
def clampQ (x lo hi : ℚ) : ℚ :=
  min (max x lo) hi

/-- Ray::generate_light_ray from ray.rs: origin at the intersection point,
direction from the light source. -/
def generate_light_ray (intersection : Intersection) (light_source : LightSource) : Ray where
  origin := intersection.point
  direction := light_source.compute_direction intersection.point

/-- Ray::generate_reflection_ray from ray.rs: mirror reflection with
re-normalized inputs and the dot product clamped to the interval from -1 to 1. -/
def generate_reflection_ray (ops : FloatOps) (intersection : Intersection) (incoming_ray : Ray) : Ray :=
  let normal := MatVec.normalize ops intersection.normal
  let direction := MatVec.normalize ops incoming_ray.direction
  let d := clampQ (MatVec.dot direction normal) (-1) 1
  { origin := intersection.point
    direction := MatVec.normalize ops (direction - MatVec.scale normal (2 * d)) }

/-- Ray::generate_refraction_ray from ray.rs.  The source mutates local
variables normal and eta when the ray is exiting the medium; the embedding
binds the mutated values with conditionals. -/
def generate_refraction_ray (ops : FloatOps) (intersection : Intersection) (incoming_ray : Ray) (ior : ℚ) : Ray :=
  let exiting := 0 < MatVec.dot incoming_ray.direction intersection.normal
  let normal := if exiting then MatVec.scale intersection.normal (-1) else intersection.normal
  let eta := if exiting then ior else 1 / ior
  let cos_i := -(clampQ (MatVec.dot normal incoming_ray.direction) (-1) 1)
  let sin_t2 := eta * eta * (1 - cos_i * cos_i)
  if 1 < sin_t2 then
    generate_reflection_ray ops intersection incoming_ray
  else
    let cos_t := ops.sqrt (1 - sin_t2)
    { origin := intersection.point
      direction := MatVec.normalize ops
        (MatVec.scale incoming_ray.direction eta + MatVec.scale normal (eta * cos_i - cos_t)) }

/-- Camera state fields consumed by primary-ray generation (mod.rs). -/
structure CameraState where
  width : ℕ
  height : ℕ
  forward : MatVec 3
  up : MatVec 3
  eye : MatVec 3

/-- The FISHEYE arm of Ray::generate_primary_ray from ray.rs: maps the pixel
to normalized screen coordinates, rejects samples outside the unit disk with
the sentinel no-ray, and otherwise blends the orthonormal camera basis. -/
def generate_primary_ray_fisheye (ops : FloatOps) (through_pixel : MatVec 2) (context : CameraState) : Ray :=
  let s_x : ℚ := (2 * through_pixel 0 - (context.width : ℚ)) / ((max context.width context.height : ℕ) : ℚ)
  let s_y : ℚ := ((context.height : ℚ) - 2 * through_pixel 1) / ((max context.width context.height : ℕ) : ℚ)
  if 1 < s_x ^ 2 + s_y ^ 2 then
    { origin := ![0, 0, 0], direction := ![0, 0, 0] }
  else
    let eye := context.eye
    let forward := context.forward
    let arbitrary_up := MatVec.normalize ops context.up
    let right := MatVec.normalize ops (MatVec.cross forward arbitrary_up)
    let up := MatVec.normalize ops (MatVec.cross right forward)
    { origin := eye
      direction := MatVec.normalize ops
        (MatVec.scale forward (ops.sqrt (1 - s_x ^ 2 - s_y ^ 2)) + MatVec.scale right s_x + MatVec.scale up s_y) }

/-- Stamping the shape id onto an intersection, as done by the scan loops in
scene.rs after a successful intersect call. -/
def stamp (i : ℕ) (intersection : Intersection) : Intersection :=
  { intersection with shape_id := some i }

/-- The enumerate loop of Scene::find_minimum_intersection: intersects every
shape with the ray, stamping the shape index onto each hit.  The first
argument of the recursion is the running loop index. -/
def scan_shapes (ray : Ray) : ℕ → List Shape → List Intersection
  | _, [] => []
  | i, shape :: rest =>
    ((shape.intersect ray).map (stamp i)).toList ++ scan_shapes ray (i + 1) rest

/-- The minimum-selection loop shared by both intersection searches in
scene.rs: keeps the current candidate unless the next intersection has a
strictly smaller distance. -/
def min_fold_step (minimum_intersection : Option Intersection) (i : Intersection) : Option Intersection :=
  match minimum_intersection with
  | none => some i
  | some mi => if i.distance < mi.distance then some i else some mi

/-- The minimum-selection loop of scene.rs run over a whole list. -/
def min_fold (intersections : List Intersection) : Option Intersection :=
  intersections.foldl min_fold_step none

/-- Scene::find_minimum_intersection from scene.rs. -/
def find_minimum_intersection (s : Scene) (ray : Ray) : Option Intersection :=
  let intersections := scan_shapes ray 0 s.shapes
  if intersections.isEmpty then none else min_fold intersections

/-- Advancing a ray origin along its own direction by the fixed bias epsilon
0.065 of scene.rs (the f32 literal 0.065 is modelled as the rational
13/200). -/
def advance_ray (r : Ray) : Ray :=
  { origin := r.origin + MatVec.scale r.direction (13 / 200), direction := r.direction }

/-- The enumerate loop of Scene::find_minimum_intersection_with_point.  The
loop keeps a mutable local_ray, threaded here as the first recursion
argument: when the loop index reaches the owning shape id k, the origin of
local_ray is advanced by the bias epsilon, and the mutated local_ray is what
every subsequent iteration tests against. -/
def scan_shapes_biased (k : ℕ) : Ray → ℕ → List Shape → List Intersection
  | _, _, [] => []
  | local_ray, i, shape :: rest =>
    let lr := if k = i then advance_ray local_ray else local_ray
    ((shape.intersect lr).map (stamp i)).toList ++ scan_shapes_biased k lr (i + 1) rest

/-- Scene::find_minimum_intersection_with_point from scene.rs.  With no
originating intersection it delegates to find_minimum_intersection.  The
source unwraps intersection.shape_id, which every caller stamps; the unwrap
is modelled with getD 0. -/
def find_minimum_intersection_with_point (s : Scene) (ray : Ray) (intersection : Option Intersection) :
    Option Intersection :=
  match intersection with
  | none => find_minimum_intersection s ray
  | some intersection0 =>
    let k := intersection0.shape_id.getD 0
    let intersections := scan_shapes_biased k ray 0 s.shapes
    if intersections.isEmpty then none else min_fold intersections

/-- Scene::_find_light_sources from scene.rs: for every light source, casts a
shadow ray from the intersection point toward the light, biased against the
primary intersection, and records a residual exactly when nothing occludes
it. -/
def find_light_sources (s : Scene) (primary_intersection : Intersection) : List LightResidual :=
  s.light_sources.filterMap fun light_source =>
    let light_ray := generate_light_ray primary_intersection light_source
    match find_minimum_intersection_with_point s light_ray (some primary_intersection) with
    | none => some
        { source_id := none
          color := light_source.light_color
          intensity := light_source.intensity light_ray
          direction := light_ray.direction
          normal := primary_intersection.normal }
    | some _ => none

/-- The LightResidual literal pushed for the global-illumination sample in
Scene::_recursive_raytrace: intensity 1, direction the sampled direction, and
normal the normalized cross product of the sampled direction with the surface
normal. -/
def gi_light_residual (ops : FloatOps) (gi_color random_direction normal : MatVec 3) : LightResidual where
  source_id := none
  color := gi_color
  intensity := 1
  direction := random_direction
  normal := MatVec.normalize ops (MatVec.cross random_direction normal)

/-- The ray constructed for the global-illumination sample in
Scene::_recursive_raytrace: origin offset from the intersection point by
0.001 along the surface normal. -/
def gi_ray (colision : Intersection) (random_direction : MatVec 3) : Ray where
  origin := colision.point + MatVec.scale colision.normal (1 / 1000)
  direction := random_direction

/-- Scene::_recursive_raytrace from scene.rs.  The thread-local random
generator feeding generate_random_direction_in_hemisphere is modelled by the
sampler parameter, which produces the sampled hemisphere direction from the
surface normal (the specification directs implementers to thread the random
source as an explicit parameter).  The refraction block is commented out in
the source, so refraction_color is the zero vector it is initialized to.
Recursion is bounded by bounce_limit + gi_depth. -/
def recursive_raytrace (ops : FloatOps) (s : Scene) (sampler : MatVec 3 → MatVec 3)
    (ray : Ray) (optional_intersection : Option Intersection) (bounce_limit gi_depth : ℕ) : MatVec 4 :=
  match find_minimum_intersection_with_point s ray optional_intersection with
  | none => ![0, 0, 0, 0]
  | some colision =>
    let shape_id := colision.shape_id.getD 0
    let color := (shapeAt s shape_id).color_at colision.point
    let ilumination_sources :=
      if _h : 0 < gi_depth then
        let random_direction := sampler colision.normal
        let gi_color := rgba_to_color
          (recursive_raytrace ops s sampler (gi_ray colision random_direction) none bounce_limit (gi_depth - 1))
        find_light_sources s colision ++ [gi_light_residual ops gi_color random_direction colision.normal]
      else
        find_light_sources s colision
    if ilumination_sources.isEmpty then ![0, 0, 0, 1]
    else
      let shininess := (shapeAt s shape_id).shininess.getD ![0, 0, 0]
      let transparency := (shapeAt s shape_id).transparency.getD ![0, 0, 0]
      let reflection_color : MatVec 3 :=
        if _h2 : 1 < bounce_limit ∧ ∃ i : Fin 3, 0 < shininess i then
          rgba_to_color
            (recursive_raytrace ops s sampler (generate_reflection_ray ops colision ray)
              (some colision) (bounce_limit - 1) gi_depth)
        else ![0, 0, 0]
      let refraction_color : MatVec 3 := ![0, 0, 0]
      let composited : MatVec 3 := fun i =>
        shininess i * reflection_color i + (1 - shininess i) * transparency i * refraction_color i
          + (1 - shininess i) * (1 - transparency i) * color i
      lambert composited ilumination_sources
termination_by bounce_limit + gi_depth
decreasing_by
  · omega
  · omega

/-- Depth of the recursion tree of Scene::_recursive_raytrace.  The function
mirrors the two recursive call sites of recursive_raytrace and their guards
exactly: a miss recurses nowhere; the global-illumination call is made
exactly when gi_depth > 0; the reflection call is made exactly when the
residual list is non-empty, bounce_limit > 1, and some shininess channel is
positive.  Its value is the maximal number of nested recursive calls. -/
def trace_call_depth (ops : FloatOps) (s : Scene) (sampler : MatVec 3 → MatVec 3)
    (ray : Ray) (optional_intersection : Option Intersection) (bounce_limit gi_depth : ℕ) : ℕ :=
  match find_minimum_intersection_with_point s ray optional_intersection with
  | none => 0
  | some colision =>
    let ilumination_sources :=
      if _h : 0 < gi_depth then
        let random_direction := sampler colision.normal
        let gi_color := rgba_to_color
          (recursive_raytrace ops s sampler (gi_ray colision random_direction) none bounce_limit (gi_depth - 1))
        find_light_sources s colision ++ [gi_light_residual ops gi_color random_direction colision.normal]
      else
        find_light_sources s colision
    let gi_part :=
      if _h : 0 < gi_depth then
        1 + trace_call_depth ops s sampler (gi_ray colision (sampler colision.normal)) none
              bounce_limit (gi_depth - 1)
      else 0
    if ilumination_sources.isEmpty then gi_part
    else
      let shininess := (shapeAt s (colision.shape_id.getD 0)).shininess.getD ![0, 0, 0]
      let reflection_part :=
        if _h2 : 1 < bounce_limit ∧ ∃ i : Fin 3, 0 < shininess i then
          1 + trace_call_depth ops s sampler (generate_reflection_ray ops colision ray)
                (some colision) (bounce_limit - 1) gi_depth
        else 0
      max gi_part reflection_part
termination_by bounce_limit + gi_depth
decreasing_by
  · omega
  · omega

/-- The residual list assembled by Scene::_recursive_raytrace before the
shadow test, written as a standalone function of the colision: the direct
light residuals, followed by the one global-illumination residual when
gi_depth > 0. -/
def ilumination_sources_of (ops : FloatOps) (s : Scene) (sampler : MatVec 3 → MatVec 3)
    (colision : Intersection) (bounce_limit gi_depth : ℕ) : List LightResidual :=
  if 0 < gi_depth then
    find_light_sources s colision ++
      [gi_light_residual ops
        (rgba_to_color
          (recursive_raytrace ops s sampler (gi_ray colision (sampler colision.normal)) none
            bounce_limit (gi_depth - 1)))
        (sampler colision.normal) colision.normal]
  else
    find_light_sources s colision

/-- The reflection color computed by Scene::_recursive_raytrace: the
recursively traced mirror ray when bounce budget remains and some shininess
channel is positive, and the zero vector otherwise. -/
def reflection_color_of (ops : FloatOps) (s : Scene) (sampler : MatVec 3 → MatVec 3)
    (colision : Intersection) (ray : Ray) (bounce_limit gi_depth : ℕ) (shininess : MatVec 3) : MatVec 3 :=
  if 1 < bounce_limit ∧ ∃ i : Fin 3, 0 < shininess i then
    rgba_to_color
      (recursive_raytrace ops s sampler (generate_reflection_ray ops colision ray)
        (some colision) (bounce_limit - 1) gi_depth)
  else ![0, 0, 0]

/-- The per-channel compositing step of Scene::_recursive_raytrace, producing
the albedo that the Lambertian accumulation multiplies. -/
def composited_albedo (shininess transparency reflection_color refraction_color base : MatVec 3) : MatVec 3 :=
  fun i =>
    shininess i * reflection_color i + (1 - shininess i) * transparency i * refraction_color i
      + (1 - shininess i) * (1 - transparency i) * base i

/-- Biased search as claim C1 describes it: the ray origin is advanced by the
bias epsilon before any intersection test, so every primitive is tested
against the same biased ray.  This is the single scan of
find_minimum_intersection run on the advanced ray. -/
def find_minimum_intersection_all_biased (s : Scene) (ray : Ray) : Option Intersection :=
  find_minimum_intersection s (advance_ray ray)

/-- The scan that find_minimum_intersection_with_point actually performs,
written without the threaded mutable ray: the shape at index i is tested
against the advanced ray exactly when the owning shape id k is at most i,
and against the original ray otherwise. -/
def scan_shapes_suffix_biased (k : ℕ) (ray : Ray) : ℕ → List Shape → List Intersection
  | _, [] => []
  | i, shape :: rest =>
    ((shape.intersect (if k ≤ i then advance_ray ray else ray)).map (stamp i)).toList ++
      scan_shapes_suffix_biased k ray (i + 1) rest

/-- Scene::trace_ray from scene.rs, the tracing entry point. -/
def trace_ray (ops : FloatOps) (s : Scene) (sampler : MatVec 3 → MatVec 3) (ray : Ray) (bounce_limit : ℕ) :
    MatVec 4 :=
  recursive_raytrace ops s sampler ray none bounce_limit s.gi_depth

/-! Helper lemmas. -/

lemma MatVec.add_apply {N : ℕ} (a b : MatVec N) (i : Fin N) : (a + b) i = a i + b i :=
  rfl

lemma MatVec.scale_apply {N : ℕ} (v : MatVec N) (r : ℚ) (i : Fin N) : MatVec.scale v r i = v i * r :=
  rfl

lemma MatVec.normalize_apply {N : ℕ} (ops : FloatOps) (v : MatVec N) (i : Fin N) :
    MatVec.normalize ops v i = v i / ops.sqrt (∑ j : Fin N, v j * v j) :=
  rfl

/-- The normalized cross product of two vectors is orthogonal to the first of
them, exactly, for every sqrt implementation: each component is divided by
the same scalar, so the triple product identity survives the division. -/
lemma dot_normalize_cross_left (ops : FloatOps) (d n : MatVec 3) :
    MatVec.dot (MatVec.normalize ops (MatVec.cross d n)) d = 0 := by
  simp only [MatVec.dot, MatVec.normalize, MatVec.cross]
  rw [Fin.sum_univ_three]
  simp only [Matrix.cons_val_zero, Matrix.cons_val_one, Matrix.head_cons, Matrix.cons_val_two,
    Matrix.tail_cons]
  ring

/-! C9: anticommutativity of the cross product. -/

/-- C9: for all 3-dimensional vectors a and b, the cross product is
anticommutative: cross(a,b) is the negation of cross(b,a). -/
theorem c9_cross_anticommutative (a b : MatVec 3) : MatVec.cross a b = -MatVec.cross b a := by
  funext i
  fin_cases i <;> simp [MatVec.cross] <;> ring

/-! C8: the exposure utility. -/

/-- C8: for every RGBA color and exposure value, appy_exposure returns
1 - exp(-channel * exposure) on each of the three color channels and passes
the alpha channel through unchanged; when exp is the exponential function
(so exp 0 = 1), the color (1,1,1) at exposure 0 maps to (0,0,0) on the color
channels. -/
theorem c8_exposure (ops : FloatOps) (color : MatVec 4) (exposure : ℚ) :
    (∀ i : Fin 4, (i : ℕ) < 3 → appy_exposure ops color exposure i = 1 - ops.exp (-color i * exposure)) ∧
    appy_exposure ops color exposure 3 = color 3 ∧
    (ops.exp 0 = 1 → ∀ a : ℚ, ∀ i : Fin 4, (i : ℕ) < 3 → appy_exposure ops ![1, 1, 1, a] 0 i = 0) := by
  refine ⟨?_, ?_, ?_⟩
  · intro i hi
    fin_cases i
    · simp [appy_exposure]
    · simp [appy_exposure]
    · simp [appy_exposure]
    · simp at hi
  · simp [appy_exposure]
  · intro hexp a i hi
    fin_cases i
    · simp [appy_exposure, hexp]
    · simp [appy_exposure, hexp]
    · simp [appy_exposure, hexp]
    · simp at hi

/-- Witness for C8, at the concrete operations ratOps (whose exp satisfies
exp 0 = 1), the color (1,1,1,5) and exposure 0. -/
theorem c8_exposure_witness :
    appy_exposure ratOps ![1, 1, 1, 5] 0 ⟨0, by omega⟩ = 0 ∧
    appy_exposure ratOps ![1, 1, 1, 5] 0 3 = (![1, 1, 1, 5] : MatVec 4) 3 := by
  refine ⟨?_, ?_⟩
  · exact (c8_exposure ratOps ![1, 1, 1, 5] 0).2.2 rfl 5 ⟨0, by omega⟩ (by norm_num)
  · exact (c8_exposure ratOps ![1, 1, 1, 5] 0).2.1

/-! C7: the fisheye projection of generate_primary_ray. -/

/-- C7: under the fisheye projection, generate_primary_ray returns the
sentinel no-ray (origin and direction both zero) when the normalized screen
coordinates satisfy s_x^2 + s_y^2 > 1, and otherwise returns the ray from the
eye whose direction is the normalized blend of the orthonormal basis with
weights sqrt(1 - s_x^2 - s_y^2), s_x and s_y. -/
theorem c7_fisheye (ops : FloatOps) (through_pixel : MatVec 2) (context : CameraState) :
    let scale_q : ℚ := ((max context.width context.height : ℕ) : ℚ)
    let s_x : ℚ := (2 * through_pixel 0 - (context.width : ℚ)) / scale_q
    let s_y : ℚ := ((context.height : ℚ) - 2 * through_pixel 1) / scale_q
    (1 < s_x ^ 2 + s_y ^ 2 →
      generate_primary_ray_fisheye ops through_pixel context =
        { origin := ![0, 0, 0], direction := ![0, 0, 0] }) ∧
    (¬ 1 < s_x ^ 2 + s_y ^ 2 →
      generate_primary_ray_fisheye ops through_pixel context =
        let forward := context.forward
        let arbitrary_up := MatVec.normalize ops context.up
        let right := MatVec.normalize ops (MatVec.cross forward arbitrary_up)
        let up := MatVec.normalize ops (MatVec.cross right forward)
        { origin := context.eye
          direction := MatVec.normalize ops
            (MatVec.scale forward (ops.sqrt (1 - s_x ^ 2 - s_y ^ 2)) +
              MatVec.scale right s_x + MatVec.scale up s_y) }) := by
  refine ⟨?_, ?_⟩
  · intro h
    simp only [generate_primary_ray_fisheye]
    rw [if_pos h]
  · intro h
    simp only [generate_primary_ray_fisheye]
    rw [if_neg h]

/-- Witness for C7: a 2 by 2 camera.  The pixel (2,0) maps to screen
coordinates (1,1), which lie outside the unit disk, so the sentinel is
returned; the center pixel (1,1) maps to (0,0) and produces the blended
ray. -/
theorem c7_fisheye_witness :
    (generate_primary_ray_fisheye ratOps ![2, 0]
        { width := 2, height := 2, forward := ![0, 0, 1], up := ![0, 1, 0], eye := ![0, 0, 0] } =
      { origin := ![0, 0, 0], direction := ![0, 0, 0] }) ∧
    (generate_primary_ray_fisheye ratOps ![1, 1]
        { width := 2, height := 2, forward := ![0, 0, 1], up := ![0, 1, 0], eye := ![0, 0, 0] } =
      let forward : MatVec 3 := ![0, 0, 1]
      let arbitrary_up := MatVec.normalize ratOps ![0, 1, 0]
      let right := MatVec.normalize ratOps (MatVec.cross forward arbitrary_up)
      let up := MatVec.normalize ratOps (MatVec.cross right forward)
      { origin := ![0, 0, 0]
        direction := MatVec.normalize ratOps
          (MatVec.scale forward (ratOps.sqrt (1 - 0 ^ 2 - 0 ^ 2)) +
            MatVec.scale right 0 + MatVec.scale up 0) }) := by
  refine ⟨?_, ?_⟩
  · refine (c7_fisheye ratOps ![2, 0] _).1 ?_
    norm_num
  · have h := (c7_fisheye ratOps ![1, 1]
      { width := 2, height := 2, forward := ![0, 0, 1], up := ![0, 1, 0], eye := ![0, 0, 0] }).2
    simp only at h
    norm_num at h ⊢
    exact h

/-! C6: the refraction ray generator. -/

/-- C6: generate_refraction_ray negates the normal and inverts the effective
index ratio exactly when the incoming direction has positive dot product with
the normal (the ray is exiting the medium); when the computed squared
refracted sine exceeds 1 (total internal reflection) it returns exactly the
ray generate_reflection_ray produces for the same intersection and incoming
ray, and otherwise it returns the Snell refraction ray built from the chosen
normal and ratio. -/
theorem c6_refraction (ops : FloatOps) (intersection : Intersection) (incoming_ray : Ray) (ior : ℚ) :
    let d := incoming_ray.direction
    let n := intersection.normal
    let exiting := 0 < MatVec.dot d n
    let normal := if exiting then MatVec.scale n (-1) else n
    let eta := if exiting then ior else 1 / ior
    let cos_i := -(clampQ (MatVec.dot normal d) (-1) 1)
    let sin_t2 := eta * eta * (1 - cos_i * cos_i)
    (1 < sin_t2 →
      generate_refraction_ray ops intersection incoming_ray ior =
        generate_reflection_ray ops intersection incoming_ray) ∧
    (¬ 1 < sin_t2 →
      generate_refraction_ray ops intersection incoming_ray ior =
        { origin := intersection.point
          direction := MatVec.normalize ops
            (MatVec.scale d eta + MatVec.scale normal (eta * cos_i - ops.sqrt (1 - sin_t2))) }) := by
  refine ⟨?_, ?_⟩
  · intro h
    simp only [generate_refraction_ray]
    rw [if_pos h]
  · intro h
    simp only [generate_refraction_ray]
    rw [if_neg h]

/-- Witness for C6 at two concrete configurations with normal (0,0,1) and
index of refraction 2.  The direction (3/5,0,4/5) exits the medium and is
totally internally reflected; the direction (3/5,0,-4/5) enters the medium
and refracts. -/
theorem c6_refraction_witness :
    (generate_refraction_ray ratOps
        { shape_id := none, point := ![0, 0, 0], normal := ![0, 0, 1], distance := 1, residual := false }
        { origin := ![0, 0, 0], direction := ![3 / 5, 0, 4 / 5] } 2 =
      generate_reflection_ray ratOps
        { shape_id := none, point := ![0, 0, 0], normal := ![0, 0, 1], distance := 1, residual := false }
        { origin := ![0, 0, 0], direction := ![3 / 5, 0, 4 / 5] }) ∧
    (generate_refraction_ray ratOps
        { shape_id := none, point := ![0, 0, 0], normal := ![0, 0, 1], distance := 1, residual := false }
        { origin := ![0, 0, 0], direction := ![3 / 5, 0, -(4 / 5)] } 2 =
      { origin := ![0, 0, 0]
        direction := MatVec.normalize ratOps
          (MatVec.scale ![3 / 5, 0, -(4 / 5)] (1 / 2) +
            MatVec.scale ![0, 0, 1] ((1 / 2) * (4 / 5) - ratOps.sqrt (1 - (1 / 2) * (1 / 2) * (1 - (4 / 5) * (4 / 5))))) }) := by
  constructor
  · refine (c6_refraction ratOps _ _ 2).1 ?_
    show (1 : ℚ) < _
    norm_num [MatVec.dot, Fin.sum_univ_three, clampQ, MatVec.scale]
  · have h := (c6_refraction ratOps
      { shape_id := none, point := ![0, 0, 0], normal := ![0, 0, 1], distance := 1, residual := false }
      { origin := ![0, 0, 0], direction := ![3 / 5, 0, -(4 / 5)] } 2).2
    simp only at h
    norm_num [MatVec.dot, Fin.sum_univ_three, clampQ, MatVec.scale] at h ⊢
    convert h using 3

/-! C5: termination of the recursive trace. -/

lemma trace_call_depth_le_aux (ops : FloatOps) (s : Scene) (sampler : MatVec 3 → MatVec 3) :
    ∀ (n bounce_limit gi_depth : ℕ), bounce_limit + gi_depth ≤ n → ∀ ray oi,
      trace_call_depth ops s sampler ray oi bounce_limit gi_depth ≤ bounce_limit + gi_depth := by
  intro n
  induction n with
  | zero =>
    intro b g hbg ray oi
    rw [trace_call_depth]
    cases hfind : find_minimum_intersection_with_point s ray oi with
    | none => simp
    | some colision =>
      simp only
      have hg : ¬ 0 < g := by omega
      simp only [dif_neg hg]
      split
      · omega
      · refine max_le (by omega) ?_
        split
        · rename_i h2
          exact absurd h2.1 (by omega)
        · omega
  | succ n ih =>
    intro b g hbg ray oi
    rw [trace_call_depth]
    cases hfind : find_minimum_intersection_with_point s ray oi with
    | none => simp
    | some colision =>
      simp only
      by_cases hg : 0 < g
      · simp only [dif_pos hg]
        have hTgi := ih b (g - 1) (by omega) (gi_ray colision (sampler colision.normal)) none
        split
        · omega
        · refine max_le (by omega) ?_
          split
          · rename_i h2
            have hTr := ih (b - 1) g (by omega)
              (generate_reflection_ray ops colision ray) (some colision)
            omega
          · omega
      · simp only [dif_neg hg]
        split
        · omega
        · refine max_le (by omega) ?_
          split
          · rename_i h2
            have hTr := ih (b - 1) g (by omega)
              (generate_reflection_ray ops colision ray) (some colision)
            omega
          · omega

/-- C5: the recursion depth of the recursive trace is bounded by
bounce_limit + gi_depth for every scene, ray, originating intersection,
bounce limit and global-illumination depth: the reflection call decrements
bounce_limit and is guarded by bounce_limit > 1, and the
global-illumination call decrements gi_depth and is guarded by gi_depth > 0,
so each recursive call strictly decreases bounce_limit + gi_depth and the
trace terminates. -/
theorem c5_recursion_depth_bound (ops : FloatOps) (s : Scene) (sampler : MatVec 3 → MatVec 3)
    (ray : Ray) (oi : Option Intersection) (bounce_limit gi_depth : ℕ) :
    trace_call_depth ops s sampler ray oi bounce_limit gi_depth ≤ bounce_limit + gi_depth :=
  trace_call_depth_le_aux ops s sampler (bounce_limit + gi_depth) bounce_limit gi_depth le_rfl ray oi

/-! Unfolding lemmas for the recursive trace, and the closed form of the
Lambertian accumulation. -/

lemma zero_vec3_apply (i : Fin 3) : (![0, 0, 0] : MatVec 3) i = 0 := by
  fin_cases i <;> rfl

lemma zero_vec3_add (v : MatVec 3) : (![0, 0, 0] : MatVec 3) + v = v := by
  funext i
  rw [MatVec.add_apply, zero_vec3_apply, zero_add]

lemma recursive_raytrace_miss (ops : FloatOps) (s : Scene) (sampler : MatVec 3 → MatVec 3)
    (ray : Ray) (oi : Option Intersection) (b g : ℕ)
    (h : find_minimum_intersection_with_point s ray oi = none) :
    recursive_raytrace ops s sampler ray oi b g = ![0, 0, 0, 0] := by
  rw [recursive_raytrace, h]

lemma recursive_raytrace_hit (ops : FloatOps) (s : Scene) (sampler : MatVec 3 → MatVec 3)
    (ray : Ray) (oi : Option Intersection) (b g : ℕ) (colision : Intersection)
    (h : find_minimum_intersection_with_point s ray oi = some colision) :
    recursive_raytrace ops s sampler ray oi b g =
      (if (ilumination_sources_of ops s sampler colision b g).isEmpty then ![0, 0, 0, 1]
       else
         lambert
           (composited_albedo
             ((shapeAt s (colision.shape_id.getD 0)).shininess.getD ![0, 0, 0])
             ((shapeAt s (colision.shape_id.getD 0)).transparency.getD ![0, 0, 0])
             (reflection_color_of ops s sampler colision ray b g
               ((shapeAt s (colision.shape_id.getD 0)).shininess.getD ![0, 0, 0]))
             ![0, 0, 0]
             ((shapeAt s (colision.shape_id.getD 0)).color_at colision.point))
           (ilumination_sources_of ops s sampler colision b g)) := by
  rw [recursive_raytrace, h]
  simp only [ilumination_sources_of, reflection_color_of, composited_albedo, dite_eq_ite]
  rfl

lemma lambert_foldl_aux (base : MatVec 3) :
    ∀ (L : List LightResidual) (acc : MatVec 3),
      L.foldl
        (fun total source =>
          total + fun i =>
            source.intensity * max (MatVec.dot source.normal source.direction) 0 * source.color i * base i)
        acc
      = acc + fun i =>
          (L.map fun source =>
            max (MatVec.dot source.normal source.direction) 0 * source.intensity * source.color i * base i).sum := by
  intro L
  induction L with
  | nil =>
    intro acc
    funext i
    simp [MatVec.add_apply]
  | cons source rest ih =>
    intro acc
    simp only [List.foldl_cons, List.map_cons, List.sum_cons, ih]
    funext i
    simp only [MatVec.add_apply]
    ring

/-- Closed form of utils::lambert: the total on each color channel is the sum
over the residual list of max(normal dot direction, 0) times intensity times
the light color times the base color, and the alpha channel is 1. -/
lemma lambert_eq (base : MatVec 3) (L : List LightResidual) :
    lambert base L =
      color_to_rgba
        (fun i =>
          (L.map fun source =>
            max (MatVec.dot source.normal source.direction) 0 * source.intensity * source.color i * base i).sum)
        1 := by
  unfold lambert
  rw [lambert_foldl_aux, zero_vec3_add]

/-! C3: miss versus shadow at the trace entry point. -/

/-- C3: the trace entry point returns transparent black (0,0,0,0) when the
ray hits no primitive, and opaque black (0,0,0,1) when it hits a primitive
but collects no light residual, that is, when gi_depth is 0 and every light
source is occluded. -/
theorem c3_miss_vs_shadow (ops : FloatOps) (s : Scene) (sampler : MatVec 3 → MatVec 3)
    (ray : Ray) (bounce_limit : ℕ) :
    (find_minimum_intersection_with_point s ray none = none →
      trace_ray ops s sampler ray bounce_limit = ![0, 0, 0, 0]) ∧
    (∀ colision, find_minimum_intersection_with_point s ray none = some colision →
      s.gi_depth = 0 → find_light_sources s colision = [] →
      trace_ray ops s sampler ray bounce_limit = ![0, 0, 0, 1]) := by
  refine ⟨?_, ?_⟩
  · intro h
    exact recursive_raytrace_miss ops s sampler ray none bounce_limit s.gi_depth h
  · intro colision h hg hlights
    rw [trace_ray, recursive_raytrace_hit ops s sampler ray none bounce_limit s.gi_depth colision h]
    rw [if_pos]
    rw [ilumination_sources_of, hg, hlights]
    simp

/-- Intersection returned by the always-hitting witness shape for C3. -/
def c3Hit : Intersection where
  shape_id := none
  point := ![0, 0, 1]
  normal := ![0, 0, -1]
  distance := 1
  residual := false

/-- Witness shape for C3: hits every ray. -/
def c3Shape : Shape where
  intersect := fun _ => some c3Hit
  color_at := fun _ => ![1, 1, 1]
  shininess := none
  transparency := none
  ior := 1458 / 1000

/-- Witness light for C3. -/
def c3Light : LightSource where
  compute_direction := fun _ => ![0, 0, -1]
  light_color := ![1, 1, 1]
  intensity := fun _ => 1

/-- Witness scene for C3: the single shape blocks every shadow ray. -/
def c3Scene : Scene where
  shapes := [c3Shape]
  light_sources := [c3Light]
  gi_depth := 0

/-- Empty witness scene for C3. -/
def c3EmptyScene : Scene where
  shapes := []
  light_sources := []
  gi_depth := 0

/-- Witness for C3.  The empty scene misses every ray; the scene with one
always-hitting shape and one light source whose shadow ray is also blocked
by that shape produces the opaque shadow color. -/
theorem c3_miss_vs_shadow_witness :
    (trace_ray ratOps c3EmptyScene (fun n => n)
        { origin := ![0, 0, 0], direction := ![0, 0, 1] } 4 = ![0, 0, 0, 0]) ∧
    (trace_ray ratOps c3Scene (fun n => n)
        { origin := ![0, 0, 0], direction := ![0, 0, 1] } 4 = ![0, 0, 0, 1]) := by
  constructor
  · exact (c3_miss_vs_shadow ratOps c3EmptyScene (fun n => n)
      { origin := ![0, 0, 0], direction := ![0, 0, 1] } 4).1 rfl
  · exact (c3_miss_vs_shadow ratOps c3Scene (fun n => n)
      { origin := ![0, 0, 0], direction := ![0, 0, 1] } 4).2 (stamp 0 c3Hit) rfl rfl rfl

/-! C4: composited albedo and Lambertian accumulation on a lit hit. -/

/-- C4: on a hit with at least one collected light residual, the returned
color is the Lambertian accumulation: on each color channel the sum over the
collected residuals of max(normal dot direction, 0) times intensity times the
light color times the albedo, with alpha fixed at 1, where the albedo is
composited before the Lambertian step as shininess times reflection plus
(1 - shininess) times transparency times refraction plus (1 - shininess)
times (1 - transparency) times the base color. -/
theorem c4_composited_lambert (ops : FloatOps) (s : Scene) (sampler : MatVec 3 → MatVec 3)
    (ray : Ray) (oi : Option Intersection) (b g : ℕ) (colision : Intersection)
    (h : find_minimum_intersection_with_point s ray oi = some colision)
    (hne : ilumination_sources_of ops s sampler colision b g ≠ []) :
    recursive_raytrace ops s sampler ray oi b g =
      color_to_rgba
        (fun c =>
          ((ilumination_sources_of ops s sampler colision b g).map fun source =>
            max (MatVec.dot source.normal source.direction) 0 * source.intensity * source.color c *
              composited_albedo
                ((shapeAt s (colision.shape_id.getD 0)).shininess.getD ![0, 0, 0])
                ((shapeAt s (colision.shape_id.getD 0)).transparency.getD ![0, 0, 0])
                (reflection_color_of ops s sampler colision ray b g
                  ((shapeAt s (colision.shape_id.getD 0)).shininess.getD ![0, 0, 0]))
                ![0, 0, 0]
                ((shapeAt s (colision.shape_id.getD 0)).color_at colision.point) c).sum)
        1 := by
  rw [recursive_raytrace_hit ops s sampler ray oi b g colision h]
  rw [if_neg (by simp [List.isEmpty_iff, hne])]
  exact lambert_eq _ _

/-- Intersection returned by the witness shape for C4. -/
def c4Hit : Intersection where
  shape_id := none
  point := ![0, 0, 1]
  normal := ![0, 0, -1]
  distance := 1
  residual := false

/-- Witness shape for C4: hits rays whose origin is near the plane z = 0, so
the primary ray from the origin hits it but the biased shadow ray does not. -/
def c4Shape : Shape where
  intersect := fun r => if r.origin 2 < 1 / 100 then some c4Hit else none
  color_at := fun _ => ![1, 1, 1]
  shininess := none
  transparency := none
  ior := 1458 / 1000

/-- Witness light for C4, pointing away from the shape. -/
def c4Light : LightSource where
  compute_direction := fun _ => ![0, 0, 1]
  light_color := ![1, 1, 1]
  intensity := fun _ => 1

/-- Witness scene for C4: the single light is unoccluded at the hit point. -/
def c4Scene : Scene where
  shapes := [c4Shape]
  light_sources := [c4Light]
  gi_depth := 0

/-- Witness ray for C4. -/
def c4Ray : Ray where
  origin := ![0, 0, 0]
  direction := ![0, 0, 1]

lemma c4_shape_hits_primary : c4Shape.intersect c4Ray = some c4Hit := by
  show (if c4Ray.origin 2 < 1 / 100 then some c4Hit else none) = some c4Hit
  rw [if_pos]
  show (0 : ℚ) < 1 / 100
  norm_num

lemma c4_find_eq : find_minimum_intersection_with_point c4Scene c4Ray none = some (stamp 0 c4Hit) := by
  show (let ints := scan_shapes c4Ray 0 [c4Shape]
        if ints.isEmpty then none else min_fold ints) = some (stamp 0 c4Hit)
  simp only [scan_shapes]
  rw [c4_shape_hits_primary]
  rfl

lemma c4_shadow_ray_escapes :
    c4Shape.intersect (advance_ray (generate_light_ray (stamp 0 c4Hit) c4Light)) = none := by
  have h2 : (advance_ray (generate_light_ray (stamp 0 c4Hit) c4Light)).origin 2 = 213 / 200 := by
    show ((stamp 0 c4Hit).point + MatVec.scale (c4Light.compute_direction (stamp 0 c4Hit).point) (13 / 200)) 2
      = 213 / 200
    rw [Pi.add_apply, MatVec.scale_apply]
    show (1 : ℚ) + 1 * (13 / 200) = 213 / 200
    norm_num
  show (if (advance_ray (generate_light_ray (stamp 0 c4Hit) c4Light)).origin 2 < 1 / 100
        then some c4Hit else none) = none
  rw [if_neg]
  rw [h2]
  norm_num

lemma c4_lights_eq :
    find_light_sources c4Scene (stamp 0 c4Hit) =
      [{ source_id := none, color := ![1, 1, 1], intensity := 1, direction := ![0, 0, 1],
         normal := ![0, 0, -1] }] := by
  have hocc : find_minimum_intersection_with_point c4Scene
      (generate_light_ray (stamp 0 c4Hit) c4Light) (some (stamp 0 c4Hit)) = none := by
    show (let ints := scan_shapes_biased 0 (generate_light_ray (stamp 0 c4Hit) c4Light) 0 [c4Shape]
          if ints.isEmpty then none else min_fold ints) = none
    simp only [scan_shapes_biased]
    simp [c4_shadow_ray_escapes]
  rw [find_light_sources]
  show List.filterMap _ [c4Light] = _
  rw [List.filterMap_cons]
  simp only [hocc]
  rfl

/-- Witness for C4: in the witness scene the primary ray hits the shape, the
single light residual survives the shadow test, and the returned color is the
Lambertian sum over that residual list. -/
theorem c4_composited_lambert_witness :
    recursive_raytrace ratOps c4Scene (fun n => n) c4Ray none 4 0 =
      color_to_rgba
        (fun c =>
          ((ilumination_sources_of ratOps c4Scene (fun n => n) (stamp 0 c4Hit) 4 0).map fun source =>
            max (MatVec.dot source.normal source.direction) 0 * source.intensity * source.color c *
              composited_albedo
                ((shapeAt c4Scene ((stamp 0 c4Hit).shape_id.getD 0)).shininess.getD ![0, 0, 0])
                ((shapeAt c4Scene ((stamp 0 c4Hit).shape_id.getD 0)).transparency.getD ![0, 0, 0])
                (reflection_color_of ratOps c4Scene (fun n => n) (stamp 0 c4Hit) c4Ray 4 0
                  ((shapeAt c4Scene ((stamp 0 c4Hit).shape_id.getD 0)).shininess.getD ![0, 0, 0]))
                ![0, 0, 0]
                ((shapeAt c4Scene ((stamp 0 c4Hit).shape_id.getD 0)).color_at (stamp 0 c4Hit).point) c).sum)
        1 := by
  refine c4_composited_lambert ratOps c4Scene (fun n => n) c4Ray none 4 0 (stamp 0 c4Hit)
    c4_find_eq ?_
  rw [ilumination_sources_of]
  rw [if_neg (by norm_num)]
  rw [c4_lights_eq]
  simp


/-! C2: the global-illumination light residual. -/

/-- Intersection returned by the always-hitting witness shape for C2. -/
def c2Hit : Intersection where
  shape_id := none
  point := ![0, 0, 0]
  normal := ![0, 0, 1]
  distance := 1
  residual := false

/-- Witness shape for C2: hits every ray. -/
def c2Shape : Shape where
  intersect := fun _ => some c2Hit
  color_at := fun _ => ![1, 1, 1]
  shininess := none
  transparency := none
  ior := 1458 / 1000

/-- Witness scene for C2: one shape, no light sources, one level of global
illumination. -/
def c2Scene : Scene where
  shapes := [c2Shape]
  light_sources := []
  gi_depth := 1

/-- Witness ray for C2. -/
def c2Ray : Ray where
  origin := ![0, 0, -5]
  direction := ![0, 0, 1]

lemma c2_gi_trace_eq :
    recursive_raytrace ratOps c2Scene (fun _ => ![1, 0, 0]) (gi_ray (stamp 0 c2Hit) ![1, 0, 0]) none 1 0 =
      ![0, 0, 0, 1] := by
  rw [recursive_raytrace_hit ratOps c2Scene (fun _ => ![1, 0, 0]) (gi_ray (stamp 0 c2Hit) ![1, 0, 0])
    none 1 0 (stamp 0 c2Hit) rfl]
  rw [if_pos (show (ilumination_sources_of ratOps c2Scene (fun _ => ![1, 0, 0])
    (stamp 0 c2Hit) 1 0).isEmpty = true from rfl)]

/-- Counterexample to C2 as stated: in a concrete one-shape scene with
gi_depth 1, the single global-illumination residual folded in by the trace
has normal field equal to the normalized cross product of the sampled
direction with the surface normal, which differs from the surface normal
(0,0,1) of the shaded point. -/
theorem c2_counterexample :
    ilumination_sources_of ratOps c2Scene (fun _ => ![1, 0, 0]) (stamp 0 c2Hit) 1 1 =
      [gi_light_residual ratOps ![0, 0, 0] ![1, 0, 0] ![0, 0, 1]] ∧
    (gi_light_residual ratOps ![0, 0, 0] ![1, 0, 0] ![0, 0, 1]).normal ≠ ![0, 0, 1] := by
  constructor
  · rw [ilumination_sources_of, if_pos (by norm_num)]
    have hlights : find_light_sources c2Scene (stamp 0 c2Hit) = [] := rfl
    rw [hlights]
    rw [c2_gi_trace_eq]
    rfl
  · intro hEq
    have h1 := congrFun hEq 1
    rw [show (gi_light_residual ratOps ![0, 0, 0] ![1, 0, 0] ![0, 0, 1]).normal
        = MatVec.normalize ratOps (MatVec.cross ![1, 0, 0] ![0, 0, 1]) from rfl] at h1
    rw [MatVec.normalize_apply] at h1
    rw [Fin.sum_univ_three] at h1
    norm_num [MatVec.cross, ratOps] at h1

/-- C2 amended: when global-illumination depth remains and the ray hits a
primitive, exactly one additional LightResidual is folded in for the
recursively traced ray, with intensity 1 and direction the sampled direction,
but its normal field is the normalized cross product of the sampled direction
with the surface normal rather than the surface normal itself; that vector is
orthogonal to the sampled direction, so the Lambertian weight of the residual
is max(0,0) = 0 and the folded-in color leaves the Lambertian accumulation
unchanged. -/
theorem c2_gi_residual_amended (ops : FloatOps) (s : Scene) (sampler : MatVec 3 → MatVec 3)
    (ray : Ray) (oi : Option Intersection) (b g : ℕ) (colision : Intersection)
    (_h : find_minimum_intersection_with_point s ray oi = some colision) (hg : 0 < g) :
    let random_direction := sampler colision.normal
    let gi_color := rgba_to_color
      (recursive_raytrace ops s sampler (gi_ray colision random_direction) none b (g - 1))
    let gi_res := gi_light_residual ops gi_color random_direction colision.normal
    ilumination_sources_of ops s sampler colision b g = find_light_sources s colision ++ [gi_res] ∧
    gi_res.intensity = 1 ∧
    gi_res.direction = random_direction ∧
    gi_res.normal = MatVec.normalize ops (MatVec.cross random_direction colision.normal) ∧
    MatVec.dot gi_res.normal gi_res.direction = 0 ∧
    ∀ base, lambert base (find_light_sources s colision ++ [gi_res]) =
      lambert base (find_light_sources s colision) := by
  intro random_direction gi_color gi_res
  have hdot : MatVec.dot gi_res.normal gi_res.direction = 0 :=
    dot_normalize_cross_left ops random_direction colision.normal
  refine ⟨?_, rfl, rfl, rfl, hdot, ?_⟩
  · rw [ilumination_sources_of, if_pos hg]
  · intro base
    rw [lambert_eq, lambert_eq]
    have hfun : (fun i : Fin 3 =>
          ((find_light_sources s colision ++ [gi_res]).map fun source =>
            max (MatVec.dot source.normal source.direction) 0 * source.intensity * source.color i * base i).sum)
        = fun i : Fin 3 =>
          ((find_light_sources s colision).map fun source =>
            max (MatVec.dot source.normal source.direction) 0 * source.intensity * source.color i * base i).sum := by
      funext i
      rw [List.map_append, List.sum_append]
      simp [hdot]
    rw [hfun]

/-- Witness for C2 amended, at the concrete one-shape scene: the residual
list is the single global-illumination residual, its normal is orthogonal to
the sampled direction, and dropping it does not change the Lambertian
total. -/
theorem c2_gi_residual_amended_witness :
    (ilumination_sources_of ratOps c2Scene (fun _ => ![1, 0, 0]) (stamp 0 c2Hit) 1 1 =
      find_light_sources c2Scene (stamp 0 c2Hit) ++
        [gi_light_residual ratOps
          (rgba_to_color
            (recursive_raytrace ratOps c2Scene (fun _ => ![1, 0, 0])
              (gi_ray (stamp 0 c2Hit) ![1, 0, 0]) none 1 0))
          ![1, 0, 0] (stamp 0 c2Hit).normal]) ∧
    MatVec.dot
      (gi_light_residual ratOps
        (rgba_to_color
          (recursive_raytrace ratOps c2Scene (fun _ => ![1, 0, 0])
            (gi_ray (stamp 0 c2Hit) ![1, 0, 0]) none 1 0))
        ![1, 0, 0] (stamp 0 c2Hit).normal).normal ![1, 0, 0] = 0 := by
  have h := c2_gi_residual_amended ratOps c2Scene (fun _ => ![1, 0, 0]) c2Ray none 1 1
    (stamp 0 c2Hit) rfl (by norm_num)
  exact ⟨h.1, h.2.2.2.2.1⟩


/-! C1: where the bias is applied in the biased intersection search. -/

lemma scan_shapes_biased_eq_suffix (k : ℕ) (ray : Ray) :
    ∀ (l : List Shape) (i : ℕ),
      scan_shapes_biased k (if k < i then advance_ray ray else ray) i l =
        scan_shapes_suffix_biased k ray i l := by
  intro l
  induction l with
  | nil => intro i; rfl
  | cons shape rest ih =>
    intro i
    rcases Nat.lt_trichotomy k i with hki | hki | hki
    · rw [if_pos hki]
      simp only [scan_shapes_biased, scan_shapes_suffix_biased]
      rw [if_neg (by omega : ¬ k = i), if_pos (by omega : k ≤ i)]
      have := ih (i + 1)
      rw [if_pos (by omega : k < i + 1)] at this
      rw [this]
    · subst hki
      rw [if_neg (by omega : ¬ k < k)]
      simp only [scan_shapes_biased, scan_shapes_suffix_biased]
      rw [if_pos (by omega : k ≤ k)]
      simp only [if_true]
      have := ih (k + 1)
      rw [if_pos (by omega : k < k + 1)] at this
      rw [this]
    · rw [if_neg (by omega : ¬ k < i)]
      simp only [scan_shapes_biased, scan_shapes_suffix_biased]
      rw [if_neg (by omega : ¬ k = i), if_neg (by omega : ¬ k ≤ i)]
      have := ih (i + 1)
      rw [if_neg (by omega : ¬ k < i + 1)] at this
      rw [this]

/-- C1 amended: given an originating intersection owned by shape k, the
biased search advances the ray origin by the fixed epsilon at the point in
the scan where the owning shape index k is reached, so the owning shape and
every shape after it in the list are tested against the biased ray, while
the shapes before it are tested against the original unbiased ray. -/
theorem c1_bias_applied_from_owner_onward (s : Scene) (ray : Ray) (intersection0 : Intersection)
    (k : ℕ) (h : intersection0.shape_id = some k) :
    find_minimum_intersection_with_point s ray (some intersection0) =
      (let intersections := scan_shapes_suffix_biased k ray 0 s.shapes
       if intersections.isEmpty then none else min_fold intersections) := by
  show (let k0 := intersection0.shape_id.getD 0
        let intersections := scan_shapes_biased k0 ray 0 s.shapes
        if intersections.isEmpty then none else min_fold intersections) = _
  rw [h]
  show (let intersections := scan_shapes_biased k ray 0 s.shapes
        if intersections.isEmpty then none else min_fold intersections) = _
  have := scan_shapes_biased_eq_suffix k ray s.shapes 0
  rw [if_neg (by omega : ¬ k < 0)] at this
  rw [this]

/-- Intersection returned by the first witness shape for C1. -/
def c1Hit : Intersection where
  shape_id := none
  point := ![0, 0, 5]
  normal := ![0, 0, -1]
  distance := 5
  residual := false

/-- First witness shape for C1: hits exactly the rays whose origin is near
z = 0, so it hits the unbiased ray but not the biased one. -/
def c1Shape0 : Shape where
  intersect := fun r => if r.origin 2 < 1 / 100 then some c1Hit else none
  color_at := fun _ => ![1, 1, 1]
  shininess := none
  transparency := none
  ior := 1458 / 1000

/-- Second witness shape for C1: hits nothing; it exists only to own the
originating intersection. -/
def c1Shape1 : Shape where
  intersect := fun _ => none
  color_at := fun _ => ![1, 1, 1]
  shininess := none
  transparency := none
  ior := 1458 / 1000

/-- Witness scene for C1. -/
def c1Scene : Scene where
  shapes := [c1Shape0, c1Shape1]
  light_sources := []
  gi_depth := 0

/-- Witness ray for C1. -/
def c1Ray : Ray where
  origin := ![0, 0, 0]
  direction := ![0, 0, 1]

/-- Originating intersection for C1, owned by shape 1. -/
def c1Origin : Intersection where
  shape_id := some 1
  point := ![0, 0, 0]
  normal := ![0, 0, 1]
  distance := 0
  residual := false

lemma c1_advanced_origin : (advance_ray c1Ray).origin 2 = 13 / 200 := by
  show (c1Ray.origin + MatVec.scale c1Ray.direction (13 / 200)) 2 = 13 / 200
  rw [Pi.add_apply, MatVec.scale_apply]
  show (0 : ℚ) + 1 * (13 / 200) = 13 / 200
  norm_num

lemma c1_shape0_unbiased : c1Shape0.intersect c1Ray = some c1Hit := by
  show (if c1Ray.origin 2 < 1 / 100 then some c1Hit else none) = some c1Hit
  rw [if_pos]
  show (0 : ℚ) < 1 / 100
  norm_num

lemma c1_shape0_biased : c1Shape0.intersect (advance_ray c1Ray) = none := by
  show (if (advance_ray c1Ray).origin 2 < 1 / 100 then some c1Hit else none) = none
  rw [if_neg]
  rw [c1_advanced_origin]
  norm_num

/-- Counterexample to C1 as stated: in a concrete two-shape scene whose
originating intersection is owned by shape 1, the biased search tests shape 0
against the original unbiased ray and reports its hit, while the search the
claim describes (every primitive tested against the same biased ray,
find_minimum_intersection_all_biased) finds nothing. -/
theorem c1_counterexample :
    find_minimum_intersection_with_point c1Scene c1Ray (some c1Origin) = some (stamp 0 c1Hit) ∧
    find_minimum_intersection_all_biased c1Scene c1Ray = none ∧
    find_minimum_intersection_with_point c1Scene c1Ray (some c1Origin) ≠
      find_minimum_intersection_all_biased c1Scene c1Ray := by
  have h1 : find_minimum_intersection_with_point c1Scene c1Ray (some c1Origin) =
      some (stamp 0 c1Hit) := by
    show (let ints := scan_shapes_biased 1 c1Ray 0 [c1Shape0, c1Shape1]
          if ints.isEmpty then none else min_fold ints) = some (stamp 0 c1Hit)
    simp only [scan_shapes_biased]
    rw [if_neg (by omega : ¬ (1 : ℕ) = 0)]
    rw [c1_shape0_unbiased]
    rfl
  have h2 : find_minimum_intersection_all_biased c1Scene c1Ray = none := by
    show (let ints := scan_shapes (advance_ray c1Ray) 0 [c1Shape0, c1Shape1]
          if ints.isEmpty then none else min_fold ints) = none
    simp only [scan_shapes]
    rw [c1_shape0_biased]
    rfl
  refine ⟨h1, h2, ?_⟩
  rw [h1, h2]
  simp

/-- Witness for C1 amended, at the concrete two-shape scene: the result of
the biased search equals the minimum over the suffix-biased scan that tests
shape 0 with the original ray and shape 1 with the biased ray. -/
theorem c1_bias_applied_from_owner_onward_witness :
    find_minimum_intersection_with_point c1Scene c1Ray (some c1Origin) =
      (let intersections := scan_shapes_suffix_biased 1 c1Ray 0 c1Scene.shapes
       if intersections.isEmpty then none else min_fold intersections) :=
  c1_bias_applied_from_owner_onward c1Scene c1Ray c1Origin 1 rfl


/-! C10: the unbiased search and its characterization. -/

lemma min_fold_go (l : List Intersection) :
    ∀ mi : Intersection,
      ∃ m, l.foldl min_fold_step (some mi) = some m ∧ (m = mi ∨ m ∈ l) ∧
        m.distance ≤ mi.distance ∧ ∀ x ∈ l, m.distance ≤ x.distance := by
  induction l with
  | nil =>
    intro mi
    exact ⟨mi, rfl, Or.inl rfl, le_refl _, by simp⟩
  | cons y t ih =>
    intro mi
    rw [List.foldl_cons]
    by_cases hy : y.distance < mi.distance
    · rw [show min_fold_step (some mi) y = some y from by simp [min_fold_step, if_pos hy]]
      obtain ⟨m, hm, hmem, hle, hall⟩ := ih y
      refine ⟨m, hm, ?_, le_trans hle (le_of_lt hy), ?_⟩
      · rcases hmem with h | h
        · exact Or.inr (h ▸ List.mem_cons_self y t)
        · exact Or.inr (List.mem_cons_of_mem y h)
      · intro x hx
        rcases List.mem_cons.mp hx with h | h
        · exact h ▸ hle
        · exact hall x h
    · rw [show min_fold_step (some mi) y = some mi from by simp [min_fold_step, if_neg hy]]
      obtain ⟨m, hm, hmem, hle, hall⟩ := ih mi
      refine ⟨m, hm, ?_, hle, ?_⟩
      · rcases hmem with h | h
        · exact Or.inl h
        · exact Or.inr (List.mem_cons_of_mem y h)
      · intro x hx
        rcases List.mem_cons.mp hx with h | h
        · exact h ▸ le_trans hle (not_lt.mp hy)
        · exact hall x h

lemma min_fold_cons_spec (x : Intersection) (l : List Intersection) :
    ∃ m, min_fold (x :: l) = some m ∧ m ∈ x :: l ∧ ∀ y ∈ x :: l, m.distance ≤ y.distance := by
  obtain ⟨m, hm, hmem, hle, hall⟩ := min_fold_go l x
  refine ⟨m, hm, ?_, ?_⟩
  · rcases hmem with h | h
    · exact h ▸ List.mem_cons_self x l
    · exact List.mem_cons_of_mem x h
  · intro y hy
    rcases List.mem_cons.mp hy with h | h
    · exact h ▸ hle
    · exact hall y h

lemma scan_shapes_nil_iff (ray : Ray) :
    ∀ (l : List Shape) (i : ℕ),
      scan_shapes ray i l = [] ↔ ∀ shape ∈ l, shape.intersect ray = none := by
  intro l
  induction l with
  | nil => intro i; simp [scan_shapes]
  | cons shape t ih =>
    intro i
    simp only [scan_shapes, List.append_eq_nil]
    constructor
    · rintro ⟨h1, h2⟩
      intro shape2 hmem
      rcases List.mem_cons.mp hmem with h | h
      · subst h
        cases hs : shape2.intersect ray with
        | none => rfl
        | some it => rw [hs] at h1; simp at h1
      · exact (ih (i + 1)).mp h2 shape2 h
    · intro hall
      refine ⟨?_, (ih (i + 1)).mpr fun shape2 h => hall shape2 (List.mem_cons_of_mem shape h)⟩
      rw [hall shape (List.mem_cons_self shape t)]
      rfl

lemma mem_scan_shapes (ray : Ray) :
    ∀ (l : List Shape) (i0 : ℕ) (x : Intersection),
      x ∈ scan_shapes ray i0 l ↔ ∃ j, ∃ hj : j < l.length, ∃ it,
        (l.get ⟨j, hj⟩).intersect ray = some it ∧ x = stamp (i0 + j) it := by
  intro l
  induction l with
  | nil => intro i0 x; simp [scan_shapes]
  | cons shape t ih =>
    intro i0 x
    simp only [scan_shapes, List.mem_append]
    constructor
    · rintro (h | h)
      · cases hs : shape.intersect ray with
        | none => rw [hs] at h; simp at h
        | some it =>
          rw [hs] at h
          simp only [Option.map_some', Option.toList_some, List.mem_singleton] at h
          exact ⟨0, by simp, it, hs, by simpa using h⟩
      · obtain ⟨j, hj, it, hit, hx⟩ := (ih (i0 + 1) x).mp h
        refine ⟨j + 1, by simpa using Nat.succ_lt_succ hj, it, hit, ?_⟩
        rw [hx]
        congr 1
        omega
    · rintro ⟨j, hj, it, hit, hx⟩
      cases j with
      | zero =>
        left
        rw [show ((shape :: t).get ⟨0, hj⟩) = shape from rfl] at hit
        rw [hit]
        simp only [Option.map_some', Option.toList_some, List.mem_singleton]
        simpa using hx
      | succ j2 =>
        right
        refine (ih (i0 + 1) x).mpr ⟨j2, by simpa using Nat.lt_of_succ_lt_succ hj, it, hit, ?_⟩
        rw [hx]
        congr 1
        omega

/-- C10: calling the biased search with no originating intersection gives
exactly the result of find_minimum_intersection, which is none exactly when
no primitive intersects the ray, and otherwise is an intersection of minimal
distance among all the primitive hits whose shape id is the index of the
producing primitive in the shape list. -/
theorem c10_none_delegates_to_plain_search (s : Scene) (ray : Ray) :
    find_minimum_intersection_with_point s ray none = find_minimum_intersection s ray ∧
    (find_minimum_intersection s ray = none ↔ ∀ shape ∈ s.shapes, shape.intersect ray = none) ∧
    ∀ res, find_minimum_intersection s ray = some res →
      (∃ j, ∃ hj : j < s.shapes.length, ∃ it,
        (s.shapes.get ⟨j, hj⟩).intersect ray = some it ∧ res = stamp j it) ∧
      ∀ j (hj : j < s.shapes.length) it, (s.shapes.get ⟨j, hj⟩).intersect ray = some it →
        res.distance ≤ it.distance := by
  refine ⟨rfl, ?_, ?_⟩
  · constructor
    · intro h
      rw [← scan_shapes_nil_iff ray s.shapes 0]
      cases hscan : scan_shapes ray 0 s.shapes with
      | nil => rfl
      | cons x t =>
        exfalso
        unfold find_minimum_intersection at h
        rw [hscan] at h
        obtain ⟨m, hm, _, _⟩ := min_fold_cons_spec x t
        simp only [List.isEmpty_cons, Bool.false_eq_true, if_false] at h
        rw [hm] at h
        exact Option.noConfusion h
    · intro hall
      unfold find_minimum_intersection
      rw [(scan_shapes_nil_iff ray s.shapes 0).mpr hall]
      rfl
  · intro res hres
    cases hscan : scan_shapes ray 0 s.shapes with
    | nil =>
      exfalso
      unfold find_minimum_intersection at hres
      rw [hscan] at hres
      exact Option.noConfusion hres
    | cons x t =>
      unfold find_minimum_intersection at hres
      rw [hscan] at hres
      simp only [List.isEmpty_cons, Bool.false_eq_true, if_false] at hres
      obtain ⟨m, hm, hmem, hall⟩ := min_fold_cons_spec x t
      rw [hm] at hres
      have hrm : m = res := Option.some.inj hres
      subst hrm
      constructor
      · have hx : m ∈ scan_shapes ray 0 s.shapes := hscan ▸ hmem
        obtain ⟨j, hj, it, hit, hxeq⟩ := (mem_scan_shapes ray s.shapes 0 m).mp hx
        exact ⟨j, hj, it, hit, by simpa using hxeq⟩
      · intro j hj it hit
        have hmem2 : stamp j it ∈ scan_shapes ray 0 s.shapes :=
          (mem_scan_shapes ray s.shapes 0 (stamp j it)).mpr ⟨j, hj, it, hit, by simp⟩
        have hle := hall (stamp j it) (hscan ▸ hmem2)
        simpa [stamp] using hle

/-- Witness for C10, at the one-shape witness scene of C3: the minimal
intersection is produced by the shape at index 0 and its distance is minimal
among all hits. -/
theorem c10_none_delegates_witness :
    (∃ j, ∃ hj : j < c3Scene.shapes.length, ∃ it,
      (c3Scene.shapes.get ⟨j, hj⟩).intersect { origin := ![0, 0, 0], direction := ![0, 0, 1] } = some it ∧
        stamp 0 c3Hit = stamp j it) ∧
    ∀ j (hj : j < c3Scene.shapes.length) it,
      (c3Scene.shapes.get ⟨j, hj⟩).intersect { origin := ![0, 0, 0], direction := ![0, 0, 1] } = some it →
        (stamp 0 c3Hit).distance ≤ it.distance :=
  (c10_none_delegates_to_plain_search c3Scene { origin := ![0, 0, 0], direction := ![0, 0, 1] }).2.2
    (stamp 0 c3Hit) rfl


end RT
